import Mathlib

/-!
Verification of `register_functions_as_routes_fastapi.py`.

The module under verification auto-registers a Python module's coroutine
functions as HTTP routes on the first `APIRouter` instance found among the
module's attributes.  Paths are derived from function names (underscores
become hyphens), functions whose attribute name starts with `noroute_` are
skipped, and functions already carrying a decorator whose dotted name starts
with the router's variable name are skipped.

The embedding below works over `List Char` so that every definition is a
plain structural recursion, evaluable by `decide`/`rfl`.  Python string
methods used by the source (`strip`, `splitlines`, `find`, `startswith`,
`lstrip`, `split`, `replace`, `upper`) are embedded one definition each.
Character-set notes: `strip` uses Python's ASCII whitespace set; `splitlines`
splits on the newline character only, which is faithful for strings returned
by `inspect.getsource` since Python loads source files with universal-newline
translation (every physical line ends in a bare newline).  `\w` of the
decorator regex is embedded as ASCII alphanumerics plus the low line, which
agrees with Python on ASCII identifiers.
-/

/-- Whitespace characters stripped by Python's `str.strip()` (ASCII set:
space, tab, newline, carriage return, vertical tab, form feed). -/
def wsChar (c : Char) : Bool :=
  c = ' ' || c = '\t' || c = '\n' || c = '\r' || c = Char.ofNat 11 || c = Char.ofNat 12

/-- Leading-whitespace removal, the left half of `str.strip()`. -/
def lstripL (l : List Char) : List Char := l.dropWhile wsChar

/-- Trailing-whitespace removal, the right half of `str.strip()`. -/
def rstripL (l : List Char) : List Char := (l.reverse.dropWhile wsChar).reverse

/-- Embedding of Python `str.strip()` on character lists. -/
def stripL (l : List Char) : List Char := rstripL (lstripL l)

/-- Embedding of Python `str.strip()`. -/
def pyStrip (s : String) : String := String.mk (stripL s.data)

/-- Embedding of Python `str.splitlines()` on character lists.  Splits on the
newline character; a trailing newline does not produce a final empty line,
and the empty string yields no lines, exactly as in Python. -/
def splitlinesL : List Char → List (List Char)
  | [] => []
  | c :: rest =>
    if c = '\n' then
      List.nil :: (if rest.isEmpty then [] else splitlinesL rest)
    else
      match splitlinesL rest with
      | [] => [[c]]
      | l :: ls => (c :: l) :: ls

/-- Embedding of Python `str.splitlines()`. -/
def pySplitlines (s : String) : List String := (splitlinesL s.data).map String.mk

/-- Boolean list-prefix test (first argument is the candidate prefix). -/
def isPrefixL : List Char → List Char → Bool
  | [], _ => true
  | _ :: _, [] => false
  | p :: ps, c :: cs => p = c && isPrefixL ps cs

/-- Embedding of Python `s.startswith(p)`. -/
def pyStartsWith (s p : String) : Bool := isPrefixL p.data s.data

/-- Index of the first occurrence of `pat` as a contiguous sublist, leftmost
match, like Python `str.find` (which returns -1, embedded as `none`, when
the pattern is absent). -/
def findSubL (pat : List Char) : List Char → Option Nat
  | [] => if isPrefixL pat [] then some 0 else none
  | c :: rest =>
    if isPrefixL pat (c :: rest) then some 0
    else (findSubL pat rest).map (· + 1)

/-- Embedding of Python `s.find(pat)`, with `none` for -1. -/
def pyFindSub (s pat : String) : Option Nat := findSubL pat.data s.data

/-- Embedding of the Python slice `s[:i]` for a nonnegative index. -/
def pyTakeStr (s : String) (i : Nat) : String := String.mk (s.data.take i)

/-- Embedding of Python `s.lstrip("@")`: removes every leading at sign. -/
def pyLstripAt (s : String) : String := String.mk (s.data.dropWhile (· = '@'))

/-- Embedding of Python `str.upper()` (ASCII case mapping). -/
def pyUpper (s : String) : String := String.mk (s.data.map Char.toUpper)

/-- Embedding of Python `s.replace(a, b)` for single-character `a` and `b`,
the only form the source uses (`name.replace("_", "-")`). -/
def pyReplaceChar (a b : Char) (s : String) : String :=
  String.mk (s.data.map fun c => if c = a then b else c)

/-- Embedding of Python `s.split(",")` on character lists: lexical split on
every comma, no quote or bracket awareness. -/
def splitCommaL : List Char → List (List Char)
  | [] => [[]]
  | c :: rest =>
    if c = ',' then List.nil :: splitCommaL rest
    else
      match splitCommaL rest with
      | [] => [[c]]
      | l :: ls => (c :: l) :: ls

/-- Index of the last occurrence of a character, or `none`. -/
def lastIdxOf (c : Char) : List Char → Option Nat
  | [] => none
  | a :: rest =>
    match lastIdxOf c rest with
    | some i => some (i + 1)
    | none => if a = c then some 0 else none

/-- Regex word character: `\w` restricted to ASCII. -/
def isWordChar (c : Char) : Bool := c.isAlphanum || c = '_'

/-- Character admitted after the first one by the group `\w[\w\.]*`. -/
def nameChar (c : Char) : Bool := isWordChar c || c = '.'

/-- Embedding of `re.match(r"(\w[\w\.]*)\s*(\((.*)\))?", deco)`:
returns the dotted-identifier group and, when the optional parenthesized
group matches, the raw text of group 3.  Greedy semantics of the Python
pattern: the identifier is the longest `\w[\w.]*` prefix, whitespace is then
skipped, and when an opening parenthesis follows, the greedy dot-star makes
group 3 run to the last closing parenthesis before the next newline (the dot
does not match newlines); if no closing parenthesis is available the
optional group matches empty.  Trailing unmatched text is allowed because
`re.match` does not anchor the end. -/
def decoratorMatchL (cs : List Char) : Option (List Char × Option (List Char)) :=
  match cs with
  | [] => none
  | c :: rest =>
    if isWordChar c then
      let nm := c :: rest.takeWhile nameChar
      let rem := (rest.dropWhile nameChar).dropWhile wsChar
      match rem with
      | '(' :: inner =>
        let scope := inner.takeWhile (fun d => d ≠ '\n')
        match lastIdxOf ')' scope with
        | some i => some (nm, some (scope.take i))
        | none => some (nm, none)
      | _ => some (nm, none)
    else none

/-- Parsed decorator record: `SimpleNamespace(name=..., args=...)` in the
source.  The no-match branch of the source returns the plain pair
`(deco, [])`; both carriers hold the same name/args data and are embedded
as this one record type. -/
structure ParsedDecorator where
  name : String
  args : List String
deriving DecidableEq, Repr

/-- Embedding of `parse_decorator_line`: strip the at-sign markers, run the
regex, and comma-split the raw argument text.  A falsy group 3 (absent or
empty) yields an empty argument list, as in the source's
`if args else []`. -/
def parse_decorator_line (line : String) : ParsedDecorator :=
  let deco := pyLstripAt line
  match decoratorMatchL deco.data with
  | none => ⟨deco, []⟩
  | some (nm, oargs) =>
    match oargs with
    | none => ⟨String.mk nm, []⟩
    | some argsL =>
      if argsL.isEmpty then ⟨String.mk nm, []⟩
      else ⟨String.mk nm, (splitCommaL argsL).map (fun a => pyStrip (String.mk a))⟩

/-- String-level view of the decorator regex match: the dotted identifier
and the optional raw argument text. -/
def decoratorMatchStr (s : String) : Option (String × Option String) :=
  (decoratorMatchL s.data).map (fun p => (String.mk p.1, p.2.map String.mk))

/-- The claim's description of the parser's argument output: the
comma-split, whitespace-trimmed raw argument substrings in declared order,
empty when there is no (or an empty) parenthesized argument list. -/
def specArgsSplit : Option String → List String
  | none => []
  | some a =>
    if a = "" then []
    else (splitCommaL a.data).map (fun l => pyStrip (String.mk l))

/-- A line (as a character list) whose text starts with the at sign. -/
def isAt (y : List Char) : Bool := pyStartsWith (String.mk y) "@"

/-- The stripped-and-filtered view of the lines of a character list: every
line, stripped, that begins with the at sign. -/
def atLines (s : List Char) : List (List Char) :=
  ((splitlinesL s).map stripL).filter isAt

/-- Apply `f` to the last element of a list, if any. -/
def modifyLast (f : List Char → List Char) : List (List Char) → List (List Char)
  | [] => []
  | [l] => [f l]
  | l :: ls => l :: modifyLast f ls

/-- Whether a character list ends with a newline. -/
def endsNL : List Char → Bool
  | [] => false
  | [c] => c = '\n'
  | _ :: rest => endsNL rest

/-- The spec's description of decorator extraction for a source whose first
occurrence of the function-definition keyword `"def "` is at index `i`:
the non-empty, whitespace-stripped lines preceding that occurrence that
begin with the annotation marker, in source order. -/
def decoratorLinesSpec (src : String) (i : Nat) : List String :=
  ((pySplitlines (pyTakeStr src i)).map pyStrip).filter
    (fun l => decide (l ≠ "") && pyStartsWith l "@")

deriving instance DecidableEq for Except

/-- Errors raised by the Python code: `OSError` from `inspect.getsource`
when a function's source is unavailable, and any error the external
`add_api_route` call raises (carried with its message). -/
inductive PyErr where
  | sourceUnavailable
  | registrationError (msg : String)
deriving DecidableEq, Repr

/-- A Python coroutine function as the source observes it: its `__name__`,
its `__module__`, and the text `inspect.getsource` would return (`none` when
source retrieval raises). -/
structure PyFunction where
  name : String
  module : String
  source : Option String
deriving DecidableEq, Repr

/-- Embedding of `get_decorator_lines`: fetch the source, cut it at the
first occurrence of `"def "` (Python `find` returns -1 when absent, so the
slice `source[:func_index]` then drops the final character), strip the cut
text, split it into lines, and keep the stripped lines that start with the
at sign. -/
def get_decorator_lines (fn : PyFunction) : Except PyErr (List String) :=
  match fn.source with
  | none => Except.error PyErr.sourceUnavailable
  | some source =>
    let head :=
      match pyFindSub source "def " with
      | some i => pyTakeStr source i
      | none => pyTakeStr source (source.data.length - 1)
    let lines := pySplitlines (pyStrip head)
    Except.ok ((lines.filter fun line => pyStartsWith (pyStrip line) "@").map pyStrip)

/-- Embedding of `get_decorators`: parse every decorator line. -/
def get_decorators (fn : PyFunction) : Except PyErr (List ParsedDecorator) :=
  (get_decorator_lines fn).map (List.map parse_decorator_line)

/-- A registered route as FastAPI's router records it: the path, the HTTP
method names, and the handler object. -/
structure RouteEntry where
  path : String
  methods : List String
  handler : PyFunction
deriving DecidableEq, Repr

/-- The mutable state of an `APIRouter`: its list of registered routes. -/
structure APIRouterState where
  routes : List RouteEntry
deriving DecidableEq, Repr

/-- A module attribute's value, as far as the source inspects it: an
`APIRouter` instance, a coroutine function, or anything else. -/
inductive PyValue where
  | router (r : APIRouterState)
  | corofn (f : PyFunction)
  | other
deriving DecidableEq, Repr

/-- A Python module: its `__name__` and its attribute dictionary in
insertion order (`vars(module)`). -/
structure PyModule where
  name : String
  attrs : List (String × PyValue)
deriving DecidableEq, Repr

/-- Embedding of `find_routers_in_module`: the name-to-router pairs for
every attribute that is an `APIRouter` instance, in attribute order. -/
def find_routers_in_module (module : PyModule) : List (String × APIRouterState) :=
  module.attrs.filterMap fun p =>
    match p.2 with
    | PyValue.router r => some (p.1, r)
    | _ => none

/-- The route record `auto_route` passes to `add_api_route`: path derived
from the handler's `__name__` with underscores replaced by hyphens and a
leading slash, methods upper-cased. -/
def routeFor (handler : PyFunction) (methods : List String) : RouteEntry :=
  ⟨"/" ++ pyReplaceChar '_' '-' handler.name, methods.map pyUpper, handler⟩

/-- Modelled from the spec: FastAPI's `APIRouter.add_api_route`, which is
external to the repository.  The spec describes the router as "a mutable
collection of registered (path, methods, handler) triples ... this system
only appends to it", so the default registration behavior appends the route
entry.  The registrar below is parametric in this operation so that errors
raised by the underlying call (spec section 7) can be modelled as well. -/
def add_api_route (st : APIRouterState) (r : RouteEntry) : Except PyErr APIRouterState :=
  Except.ok ⟨st.routes ++ [r]⟩

/-- Embedding of `auto_route`: default the methods to `["get"]` when the
caller passes `None`, then hand the derived route to the router's
registration call (`add`). -/
def auto_route (add : APIRouterState → RouteEntry → Except PyErr APIRouterState)
    (router : APIRouterState) (handler : PyFunction) (methods : Option (List String)) :
    Except PyErr APIRouterState :=
  add router (routeFor handler (methods.getD ["get"]))

/-- Lexicographic code-point comparison of character lists, the order
Python's `sorted` uses on strings. -/
def charListLe : List Char → List Char → Bool
  | [], _ => true
  | _ :: _, [] => false
  | a :: as, b :: bs => if a = b then charListLe as bs else decide (a.toNat < b.toNat)

/-- Stable insertion into a name-sorted member list. -/
def insertMember (p : String × PyFunction) :
    List (String × PyFunction) → List (String × PyFunction)
  | [] => [p]
  | q :: rest => if charListLe p.1.data q.1.data then p :: q :: rest else q :: insertMember p rest

/-- Name-sorted member list, embedding the sorted output of
`inspect.getmembers`. -/
def sortMembers : List (String × PyFunction) → List (String × PyFunction)
  | [] => []
  | p :: rest => insertMember p (sortMembers rest)

/-- Embedding of `inspect.getmembers(module, inspect.iscoroutinefunction)`:
the coroutine-function attributes of the module as (name, value) pairs,
sorted by attribute name. -/
def coroutineMembers (module : PyModule) : List (String × PyFunction) :=
  sortMembers (module.attrs.filterMap fun p =>
    match p.2 with
    | PyValue.corofn f => some (p.1, f)
    | _ => none)

/-- Embedding of the registrar's `for` loop over the coroutine members.
The pair returned is the router's state together with the raised error, if
any: a raised error stops the loop but leaves the routes already appended
to the (in-place mutated) router. -/
def registerLoop (add : APIRouterState → RouteEntry → Except PyErr APIRouterState)
    (moduleName routerName : String) (methods : List String) :
    List (String × PyFunction) → APIRouterState → APIRouterState × Option PyErr
  | [], st => (st, none)
  | (name, fn) :: rest, st =>
    match get_decorators fn with
    | Except.error e => (st, some e)
    | Except.ok decos =>
      let hasFastapiDecorator := decos.any fun d => pyStartsWith d.name routerName
      if (fn.module == moduleName) && !hasFastapiDecorator && !pyStartsWith name "noroute_" then
        match auto_route add st fn (some methods) with
        | Except.error e => (st, some e)
        | Except.ok st2 => registerLoop add moduleName routerName methods rest st2
      else
        registerLoop add moduleName routerName methods rest st

/-- Outcome of a registrar call: `noRouter` is the `StopIteration` raised by
`next(iter(...))` on an empty router mapping; `ran router err` means the
loop ran, left the first router in state `router`, and raised `err` (if
`some`). -/
inductive RegOutcome where
  | noRouter
  | ran (router : APIRouterState) (err : Option PyErr)
deriving DecidableEq, Repr

/-- Embedding of `register_functions_as_routes`.  The Python default for
`methods` is `["get"]`; callers of the embedding pass it explicitly.  `add`
is the underlying router registration call (see `add_api_route`). -/
def register_functions_as_routes
    (add : APIRouterState → RouteEntry → Except PyErr APIRouterState)
    (module : PyModule) (methods : List String) : RegOutcome :=
  match find_routers_in_module module with
  | [] => RegOutcome.noRouter
  | (router_name, router) :: _ =>
    let (st, err) := registerLoop add module.name router_name methods
      (coroutineMembers module) router
    RegOutcome.ran st err

/-! Concrete fixtures used by the witnesses: small modules in the shape the
Python runtime would present them, with realistic `inspect.getsource`
texts. -/

/-- Source text of an undecorated coroutine function named `n`. -/
def srcPlain (n : String) : String := "async def " ++ n ++ "():\n\tpass\n"

/-- Source text of a coroutine function named `n` carrying one decorator
line `d` above its definition. -/
def srcWithDeco (d n : String) : String := d ++ "\nasync def " ++ n ++ "():\n\tpass\n"

def fnFetchA : PyFunction := ⟨"fetch_a", "m", some (srcPlain "fetch_a")⟩

def fnNorouteB : PyFunction := ⟨"noroute_fetch_b", "m", some (srcPlain "noroute_fetch_b")⟩

/-- Module of spec section 8's example: one router, `fetch_a`, and
`noroute_fetch_b`. -/
def modAB : PyModule :=
  ⟨"m", [("router", PyValue.router ⟨[]⟩),
         ("fetch_a", PyValue.corofn fnFetchA),
         ("noroute_fetch_b", PyValue.corofn fnNorouteB)]⟩

def fnXYZ : PyFunction := ⟨"x_y_z", "m1", some (srcPlain "x_y_z")⟩

def modXYZ : PyModule :=
  ⟨"m1", [("router", PyValue.router ⟨[]⟩), ("x_y_z", PyValue.corofn fnXYZ)]⟩

/-- Function already carrying a decorator named `router2.get`: its parsed
decorator name starts with the string `router`, so the prefix heuristic
excludes it. -/
def fnCustom : PyFunction :=
  ⟨"custom_ep", "m4", some (srcWithDeco "@router2.get(\"/x\")" "custom_ep")⟩

def fnOther : PyFunction := ⟨"other_ep", "m4", some (srcPlain "other_ep")⟩

def modDeco : PyModule :=
  ⟨"m4", [("router", PyValue.router ⟨[]⟩),
          ("custom_ep", PyValue.corofn fnCustom),
          ("other_ep", PyValue.corofn fnOther)]⟩

def modNoRouter : PyModule :=
  ⟨"m3", [("x", PyValue.other), ("fetch_a", PyValue.corofn fnFetchA)]⟩

def fnAOne : PyFunction := ⟨"a_one", "m8", some (srcPlain "a_one")⟩

def fnBTwo : PyFunction := ⟨"b_two", "m8", some (srcPlain "b_two")⟩

def fnCThree : PyFunction := ⟨"c_three", "m8", some (srcPlain "c_three")⟩

def modThree : PyModule :=
  ⟨"m8", [("router", PyValue.router ⟨[]⟩),
          ("a_one", PyValue.corofn fnAOne),
          ("b_two", PyValue.corofn fnBTwo),
          ("c_three", PyValue.corofn fnCThree)]⟩

/-- A registration call that fails on the path `/b-two` and appends
otherwise, modelling an underlying router error on one handler. -/
def failingAdd (st : APIRouterState) (r : RouteEntry) : Except PyErr APIRouterState :=
  if r.path = "/b-two" then Except.error (PyErr.registrationError "invalid route")
  else Except.ok ⟨st.routes ++ [r]⟩

/-- Coroutine function whose source is unavailable and whose attribute name
is `noroute_`-prefixed: ineligible, yet its decorator extraction still runs
and raises. -/
def fnNoSrc : PyFunction := ⟨"noroute_bad", "m10", none⟩

def fnFetchA10 : PyFunction := ⟨"fetch_a", "m10", some (srcPlain "fetch_a")⟩

def modBadSrc : PyModule :=
  ⟨"m10", [("router", PyValue.router ⟨[]⟩),
           ("fetch_a", PyValue.corofn fnFetchA10),
           ("noroute_bad", PyValue.corofn fnNoSrc)]⟩

example : register_functions_as_routes add_api_route modAB ["get"] =
    RegOutcome.ran ⟨[⟨"/fetch-a", ["GET"], fnFetchA⟩]⟩ none := by decide

example : register_functions_as_routes add_api_route modXYZ ["get"] =
    RegOutcome.ran ⟨[⟨"/x-y-z", ["GET"], fnXYZ⟩]⟩ none := by decide

example : register_functions_as_routes add_api_route modDeco ["get"] =
    RegOutcome.ran ⟨[⟨"/other-ep", ["GET"], fnOther⟩]⟩ none := by decide

example : register_functions_as_routes add_api_route modNoRouter ["get"] =
    RegOutcome.noRouter := by decide

example : register_functions_as_routes failingAdd modThree ["get"] =
    RegOutcome.ran ⟨[⟨"/a-one", ["GET"], fnAOne⟩]⟩
      (some (PyErr.registrationError "invalid route")) := by decide

example : register_functions_as_routes add_api_route modBadSrc ["get"] =
    RegOutcome.ran ⟨[⟨"/fetch-a", ["GET"], fnFetchA10⟩]⟩
      (some PyErr.sourceUnavailable) := by decide

example : get_decorators fnCustom =
    Except.ok [⟨"router2.get", ["\"/x\""]⟩] := by decide

example : parse_decorator_line "@router.get(\"/custom\", tags=[\"x\"])" =
    ⟨"router.get", ["\"/custom\"", "tags=[\"x\"]"]⟩ := by decide

example : parse_decorator_line "@app.post" = ⟨"app.post", []⟩ := by decide

example : parse_decorator_line "@ oops(1)" = ⟨" oops(1)", []⟩ := by decide

/-! Structural lemmas about the registrar loop. -/

/-- Every route the loop appends (running with the appending
`add_api_route`) satisfies the eligibility conditions of the source's `if`:
derived path, upper-cased methods, matching defining module, a
non-`noroute_` member binding, and successfully parsed decorators none of
which is prefixed by the router's name. -/
theorem registerLoop_routes (mn rn : String) (ms : List String) :
    ∀ (members : List (String × PyFunction)) (st : APIRouterState),
    ∃ added : List RouteEntry,
      (registerLoop add_api_route mn rn ms members st).1.routes = st.routes ++ added ∧
      ∀ r ∈ added,
        r.path = "/" ++ pyReplaceChar '_' '-' r.handler.name ∧
        r.methods = ms.map pyUpper ∧
        r.handler.module = mn ∧
        (∃ nm, (nm, r.handler) ∈ members ∧ pyStartsWith nm "noroute_" = false) ∧
        (∃ ds, get_decorators r.handler = Except.ok ds ∧
          (ds.any fun d => pyStartsWith d.name rn) = false) := by
  intro members
  induction members with
  | nil =>
    intro st
    exact ⟨[], by simp [registerLoop], by simp⟩
  | cons p rest ih =>
    intro st
    obtain ⟨name, fn⟩ := p
    cases hds : get_decorators fn with
    | error e =>
      refine ⟨[], ?_, by simp⟩
      simp [registerLoop, hds]
    | ok decos =>
      by_cases hc : ((fn.module == mn) && !(decos.any fun d => pyStartsWith d.name rn)
          && !(pyStartsWith name "noroute_")) = true
      · have hstep : registerLoop add_api_route mn rn ms ((name, fn) :: rest) st =
            registerLoop add_api_route mn rn ms rest ⟨st.routes ++ [routeFor fn ms]⟩ := by
          simp [registerLoop, hds, hc, auto_route, add_api_route]
        have hc' := hc
        simp only [Bool.and_eq_true, Bool.not_eq_true', beq_iff_eq] at hc'
        obtain ⟨⟨hmod, hdeco⟩, hnor⟩ := hc'
        obtain ⟨added', hroutes', hprops'⟩ :=
          ih ⟨st.routes ++ [routeFor fn ms]⟩
        refine ⟨routeFor fn ms :: added', ?_, ?_⟩
        · rw [hstep, hroutes']
          simp
        · intro r hr
          rcases List.mem_cons.mp hr with hr | hr
          · subst hr
            exact ⟨rfl, rfl, hmod, ⟨name, List.mem_cons_self _ _, hnor⟩,
              ⟨decos, hds, hdeco⟩⟩
          · obtain ⟨h1, h2, h3, ⟨nm, hnm, hnm2⟩, h5⟩ := hprops' r hr
            exact ⟨h1, h2, h3, ⟨nm, List.mem_cons_of_mem _ hnm, hnm2⟩, h5⟩
      · have hstep : registerLoop add_api_route mn rn ms ((name, fn) :: rest) st =
            registerLoop add_api_route mn rn ms rest st := by
          simp only [registerLoop, hds]
          rw [if_neg hc]
        obtain ⟨added', hroutes', hprops'⟩ := ih st
        refine ⟨added', by rw [hstep]; exact hroutes', ?_⟩
        intro r hr
        obtain ⟨h1, h2, h3, ⟨nm, hnm, hnm2⟩, h5⟩ := hprops' r hr
        exact ⟨h1, h2, h3, ⟨nm, List.mem_cons_of_mem _ hnm, hnm2⟩, h5⟩

/-- The loop over an appended member list runs the first part and, only
when that part raised no error, continues with the second part from the
state the first part produced. -/
theorem registerLoop_append (add : APIRouterState → RouteEntry → Except PyErr APIRouterState)
    (mn rn : String) (ms : List String) :
    ∀ (pre suf : List (String × PyFunction)) (st : APIRouterState),
    registerLoop add mn rn ms (pre ++ suf) st =
      match registerLoop add mn rn ms pre st with
      | (st1, none) => registerLoop add mn rn ms suf st1
      | (st1, some e) => (st1, some e) := by
  intro pre
  induction pre with
  | nil => intro suf st; simp [registerLoop]
  | cons p rest ih =>
    intro suf st
    obtain ⟨name, fn⟩ := p
    cases hds : get_decorators fn with
    | error e => simp [registerLoop, hds]
    | ok decos =>
      by_cases hc : ((fn.module == mn) && !(decos.any fun d => pyStartsWith d.name rn)
          && !(pyStartsWith name "noroute_")) = true
      · cases hadd : auto_route add st fn (some ms) with
        | error e => simp [registerLoop, hds, hc, hadd]
        | ok st2 => simp [registerLoop, hds, hc, hadd, ih]
      · simp only [List.cons_append, registerLoop, hds]
        rw [if_neg hc, if_neg hc]
        exact ih suf st

/-- A `ran` outcome of the registrar determines the loop's result on the
first discovered router. -/
theorem register_ran (add : APIRouterState → RouteEntry → Except PyErr APIRouterState)
    (m : PyModule) (ms : List String) (rn : String) (r0 : APIRouterState)
    (rest : List (String × APIRouterState)) (final : APIRouterState) (err : Option PyErr)
    (hfind : find_routers_in_module m = (rn, r0) :: rest)
    (hreg : register_functions_as_routes add m ms = RegOutcome.ran final err) :
    registerLoop add m.name rn ms (coroutineMembers m) r0 = (final, err) := by
  rw [register_functions_as_routes, hfind] at hreg
  cases hloop : registerLoop add m.name rn ms (coroutineMembers m) r0 with
  | mk st e =>
    simp only [hloop, RegOutcome.ran.injEq] at hreg
    rw [hreg.1, hreg.2]

/-! Claim theorems. -/

/-- Claim C1: for every eligible coroutine function, the URL path under
which it is registered equals a leading slash followed by the function's
name with every underscore replaced by a hyphen. -/
theorem spec_c1 (m : PyModule) (ms : List String) (rn : String) (r0 : APIRouterState)
    (rest : List (String × APIRouterState)) (final : APIRouterState) (err : Option PyErr)
    (hfind : find_routers_in_module m = (rn, r0) :: rest)
    (hreg : register_functions_as_routes add_api_route m ms = RegOutcome.ran final err) :
    ∀ r ∈ final.routes.drop r0.routes.length,
      r.path = "/" ++ pyReplaceChar '_' '-' r.handler.name := by
  have hloop := register_ran add_api_route m ms rn r0 rest final err hfind hreg
  obtain ⟨added, hroutes, hprops⟩ := registerLoop_routes m.name rn ms (coroutineMembers m) r0
  rw [hloop] at hroutes
  intro r hr
  rw [hroutes, List.drop_left] at hr
  exact (hprops r hr).1

/-- Witness for C1: a function named `x_y_z` is registered at `/x-y-z`. -/
theorem spec_c1_witness :
    (⟨"/x-y-z", ["GET"], fnXYZ⟩ : RouteEntry).path =
      "/" ++ pyReplaceChar '_' '-' (⟨"/x-y-z", ["GET"], fnXYZ⟩ : RouteEntry).handler.name :=
  spec_c1 modXYZ ["get"] "router" ⟨[]⟩ [] ⟨[⟨"/x-y-z", ["GET"], fnXYZ⟩]⟩ none
    (by decide) (by decide) ⟨"/x-y-z", ["GET"], fnXYZ⟩ (by decide)

/-- Claim C2: a coroutine member whose attribute name starts with
`noroute_` is never registered, whatever its decorators or defining module.
The uniqueness hypothesis pins down the function's one attribute binding,
matching the claim's talk of "the" attribute name of a function. -/
theorem spec_c2 (m : PyModule) (ms : List String) (rn : String) (r0 : APIRouterState)
    (rest : List (String × APIRouterState)) (final : APIRouterState) (err : Option PyErr)
    (nm : String) (fn : PyFunction)
    (hfind : find_routers_in_module m = (rn, r0) :: rest)
    (hreg : register_functions_as_routes add_api_route m ms = RegOutcome.ran final err)
    (hmem : (nm, fn) ∈ coroutineMembers m)
    (hpre : pyStartsWith nm "noroute_" = true)
    (huniq : ∀ nm2, (nm2, fn) ∈ coroutineMembers m → nm2 = nm) :
    ∀ r ∈ final.routes.drop r0.routes.length, r.handler ≠ fn := by
  have hloop := register_ran add_api_route m ms rn r0 rest final err hfind hreg
  obtain ⟨added, hroutes, hprops⟩ := registerLoop_routes m.name rn ms (coroutineMembers m) r0
  rw [hloop] at hroutes
  intro r hr heq
  rw [hroutes, List.drop_left] at hr
  obtain ⟨-, -, -, ⟨nm2, hnm2mem, hnm2⟩, -⟩ := hprops r hr
  rw [heq] at hnm2mem
  rw [huniq nm2 hnm2mem] at hnm2
  rw [hpre] at hnm2
  exact Bool.true_eq_false.mp hnm2

/-- Witness for C2: in the module holding `fetch_a` and `noroute_fetch_b`,
the registered route's handler is not `noroute_fetch_b`. -/
theorem spec_c2_witness :
    (⟨"/fetch-a", ["GET"], fnFetchA⟩ : RouteEntry).handler ≠ fnNorouteB :=
  spec_c2 modAB ["get"] "router" ⟨[]⟩ [] ⟨[⟨"/fetch-a", ["GET"], fnFetchA⟩]⟩ none
    "noroute_fetch_b" fnNorouteB (by decide) (by decide) (by decide) (by decide)
    (by
      intro nm2 h
      rw [show coroutineMembers modAB =
          [("fetch_a", fnFetchA), ("noroute_fetch_b", fnNorouteB)] from by decide] at h
      rcases List.mem_cons.mp h with h | h
      · have h2 : fnNorouteB = fnFetchA := congrArg Prod.snd h
        exact absurd h2 (by decide)
      · rcases List.mem_cons.mp h with h | h
        · exact congrArg Prod.fst h
        · exact absurd h (List.not_mem_nil _))
    ⟨"/fetch-a", ["GET"], fnFetchA⟩ (by decide)

/-- Claim C3: with zero router attributes the router finder returns the
empty mapping without failing, and the registrar's call fails with the
no-router (iteration-exhaustion) outcome, registering nothing. -/
theorem spec_c3 (m : PyModule)
    (h : ∀ p ∈ m.attrs, ∀ r : APIRouterState, p.2 ≠ PyValue.router r) :
    find_routers_in_module m = [] ∧
    ∀ (add : APIRouterState → RouteEntry → Except PyErr APIRouterState)
      (ms : List String),
      register_functions_as_routes add m ms = RegOutcome.noRouter := by
  have hfind : find_routers_in_module m = [] := by
    rw [find_routers_in_module]
    rw [List.filterMap_eq_nil_iff]
    intro p hp
    cases hv : p.2 with
    | router r => exact absurd hv (h p hp r)
    | corofn f => simp
    | other => simp
  exact ⟨hfind, fun add ms => by rw [register_functions_as_routes, hfind]⟩

/-- Witness for C3: a module with no router attribute. -/
theorem spec_c3_witness :
    find_routers_in_module modNoRouter = [] ∧
    register_functions_as_routes add_api_route modNoRouter ["get"] = RegOutcome.noRouter := by
  have h := spec_c3 modNoRouter (by
    intro p hp r
    have hp2 : p = ("x", PyValue.other) ∨ p = ("fetch_a", PyValue.corofn fnFetchA) := by
      simpa [modNoRouter] using hp
    rcases hp2 with h | h <;> subst h <;> simp)
  exact ⟨h.1, h.2 add_api_route ["get"]⟩

/-- Claim C4: a coroutine function carrying a decorator whose parsed dotted
name starts with the discovered router's attribute name (a pure
string-prefix test) is never registered. -/
theorem spec_c4 (m : PyModule) (ms : List String) (rn : String) (r0 : APIRouterState)
    (rest : List (String × APIRouterState)) (final : APIRouterState) (err : Option PyErr)
    (fn : PyFunction) (ds : List ParsedDecorator) (d : ParsedDecorator)
    (hfind : find_routers_in_module m = (rn, r0) :: rest)
    (hreg : register_functions_as_routes add_api_route m ms = RegOutcome.ran final err)
    (hds : get_decorators fn = Except.ok ds)
    (hd : d ∈ ds)
    (hdpre : pyStartsWith d.name rn = true) :
    ∀ r ∈ final.routes.drop r0.routes.length, r.handler ≠ fn := by
  have hloop := register_ran add_api_route m ms rn r0 rest final err hfind hreg
  obtain ⟨added, hroutes, hprops⟩ := registerLoop_routes m.name rn ms (coroutineMembers m) r0
  rw [hloop] at hroutes
  intro r hr heq
  rw [hroutes, List.drop_left] at hr
  obtain ⟨-, -, -, -, ds2, hds2, hany⟩ := hprops r hr
  rw [heq, hds] at hds2
  have hdseq : ds = ds2 := by
    injection hds2
  rw [← hdseq] at hany
  exact List.any_eq_false.mp hany d hd hdpre

/-- Witness for C4: a function decorated with `@router2.get("/x")` is
excluded when the router's attribute name is `router`, because
`router2.get` starts with `router` (the prefix-test false positive the
claim describes). -/
theorem spec_c4_witness :
    (⟨"/other-ep", ["GET"], fnOther⟩ : RouteEntry).handler ≠ fnCustom :=
  spec_c4 modDeco ["get"] "router" ⟨[]⟩ [] ⟨[⟨"/other-ep", ["GET"], fnOther⟩]⟩ none
    fnCustom [⟨"router2.get", ["\"/x\""]⟩] ⟨"router2.get", ["\"/x\""]⟩
    (by decide) (by decide) (by decide) (by decide) (by decide)
    ⟨"/other-ep", ["GET"], fnOther⟩ (by decide)

/-- Claim C7: every registered route carries every method name of the
`methods` argument upper-cased, and on the module holding `fetch_a` and
`noroute_fetch_b` the default-method call yields exactly one new route, at
`/fetch-a`, for method `GET`. -/
theorem spec_c7 :
    (∀ (m : PyModule) (ms : List String) (rn : String) (r0 : APIRouterState)
      (rest : List (String × APIRouterState)) (final : APIRouterState) (err : Option PyErr),
      find_routers_in_module m = (rn, r0) :: rest →
      register_functions_as_routes add_api_route m ms = RegOutcome.ran final err →
      ∀ r ∈ final.routes.drop r0.routes.length, r.methods = ms.map pyUpper) ∧
    register_functions_as_routes add_api_route modAB ["get"] =
      RegOutcome.ran ⟨[⟨"/fetch-a", ["GET"], fnFetchA⟩]⟩ none := by
  constructor
  · intro m ms rn r0 rest final err hfind hreg
    have hloop := register_ran add_api_route m ms rn r0 rest final err hfind hreg
    obtain ⟨added, hroutes, hprops⟩ := registerLoop_routes m.name rn ms (coroutineMembers m) r0
    rw [hloop] at hroutes
    intro r hr
    rw [hroutes, List.drop_left] at hr
    exact (hprops r hr).2.1
  · decide

/-- Witness for C7: the single route registered on the example module
carries the upper-cased default method list. -/
theorem spec_c7_witness :
    (⟨"/fetch-a", ["GET"], fnFetchA⟩ : RouteEntry).methods = ["get"].map pyUpper :=
  spec_c7.1 modAB ["get"] "router" ⟨[]⟩ [] ⟨[⟨"/fetch-a", ["GET"], fnFetchA⟩]⟩ none
    (by decide) spec_c7.2 ⟨"/fetch-a", ["GET"], fnFetchA⟩ (by decide)

/-- Claim C8: when the underlying registration call raises for one function
(after the members before it were processed without error), the whole
registrar call aborts there: the raised error propagates unmodified, the
routes registered earlier in the same call remain on the router, and no
later member is registered. -/
theorem spec_c8 (add : APIRouterState → RouteEntry → Except PyErr APIRouterState)
    (m : PyModule) (ms : List String) (rn : String) (r0 : APIRouterState)
    (rest : List (String × APIRouterState))
    (pre post : List (String × PyFunction)) (nm : String) (fn : PyFunction)
    (stk : APIRouterState) (e : PyErr) (ds : List ParsedDecorator)
    (hfind : find_routers_in_module m = (rn, r0) :: rest)
    (hmem : coroutineMembers m = pre ++ (nm, fn) :: post)
    (hpre : registerLoop add m.name rn ms pre r0 = (stk, none))
    (hds : get_decorators fn = Except.ok ds)
    (hmod : fn.module = m.name)
    (hdeco : (ds.any fun d => pyStartsWith d.name rn) = false)
    (hnor : pyStartsWith nm "noroute_" = false)
    (hadd : add stk (routeFor fn ms) = Except.error e) :
    register_functions_as_routes add m ms = RegOutcome.ran stk (some e) := by
  have hstep : register_functions_as_routes add m ms =
      RegOutcome.ran (registerLoop add m.name rn ms (coroutineMembers m) r0).1
        (registerLoop add m.name rn ms (coroutineMembers m) r0).2 := by
    rw [register_functions_as_routes, hfind]
  rw [hstep, hmem, registerLoop_append, hpre]
  have hcond : ((fn.module == m.name) && !(ds.any fun d => pyStartsWith d.name rn)
      && !(pyStartsWith nm "noroute_")) = true := by
    rw [hmod, hdeco, hnor]
    simp
  simp [registerLoop, hds, hcond, auto_route, hadd]

/-- Witness for C8: with a registration call that rejects the path
`/b-two`, the run over `a_one`, `b_two`, `c_three` keeps `a_one`'s route,
reports the raised error, and registers nothing for `c_three`. -/
theorem spec_c8_witness :
    register_functions_as_routes failingAdd modThree ["get"] =
      RegOutcome.ran ⟨[⟨"/a-one", ["GET"], fnAOne⟩]⟩
        (some (PyErr.registrationError "invalid route")) :=
  spec_c8 failingAdd modThree ["get"] "router" ⟨[]⟩ []
    [("a_one", fnAOne)] [("c_three", fnCThree)] "b_two" fnBTwo
    ⟨[⟨"/a-one", ["GET"], fnAOne⟩]⟩ (PyErr.registrationError "invalid route") []
    (by decide) (by decide) (by decide) (by decide) (by decide) (by decide)
    (by decide) (by decide)

/-- Claim C10: decorator extraction (including source retrieval) runs for
every coroutine member before any eligibility condition is evaluated, so a
source-unavailable error on an ineligible member (one `noroute_`-prefixed
or defined in another module) still aborts the entire call once reached. -/
theorem spec_c10 (m : PyModule) (ms : List String) (rn : String) (r0 : APIRouterState)
    (rest : List (String × APIRouterState))
    (pre post : List (String × PyFunction)) (nm : String) (fn : PyFunction)
    (stk : APIRouterState)
    (hfind : find_routers_in_module m = (rn, r0) :: rest)
    (hmem : coroutineMembers m = pre ++ (nm, fn) :: post)
    (hpre : registerLoop add_api_route m.name rn ms pre r0 = (stk, none))
    (hsrc : fn.source = none)
    (hinelig : pyStartsWith nm "noroute_" = true ∨ fn.module ≠ m.name) :
    register_functions_as_routes add_api_route m ms =
      RegOutcome.ran stk (some PyErr.sourceUnavailable) := by
  have hstep : register_functions_as_routes add_api_route m ms =
      RegOutcome.ran (registerLoop add_api_route m.name rn ms (coroutineMembers m) r0).1
        (registerLoop add_api_route m.name rn ms (coroutineMembers m) r0).2 := by
    rw [register_functions_as_routes, hfind]
  rw [hstep, hmem, registerLoop_append, hpre]
  have hds : get_decorators fn = Except.error PyErr.sourceUnavailable := by
    rw [get_decorators, get_decorator_lines, hsrc]
    rfl
  simp [registerLoop, hds]

/-- Witness for C10: the member `noroute_bad` is ineligible (its name is
`noroute_`-prefixed) and has no retrievable source; the whole call still
aborts with the source-unavailable error, keeping only `fetch_a`'s route. -/
theorem spec_c10_witness :
    register_functions_as_routes add_api_route modBadSrc ["get"] =
      RegOutcome.ran ⟨[⟨"/fetch-a", ["GET"], fnFetchA10⟩]⟩
        (some PyErr.sourceUnavailable) :=
  spec_c10 modBadSrc ["get"] "router" ⟨[]⟩ []
    [("fetch_a", fnFetchA10)] [] "noroute_bad" fnNoSrc
    ⟨[⟨"/fetch-a", ["GET"], fnFetchA10⟩]⟩
    (by decide) (by decide) (by decide) (by decide) (Or.inl (by decide))

/-- Claim C5: parsing `@router.get("/custom", tags=["x"])` yields name
`router.get` and the raw argument substrings, and in general every line
matching the dotted-identifier shape parses to the matched identifier with
the comma-split, trimmed raw arguments. -/
theorem spec_c5 :
    parse_decorator_line "@router.get(\"/custom\", tags=[\"x\"])" =
      ⟨"router.get", ["\"/custom\"", "tags=[\"x\"]"]⟩ ∧
    ∀ (line nm : String) (oargs : Option String),
      decoratorMatchStr (pyLstripAt line) = some (nm, oargs) →
      parse_decorator_line line = ⟨nm, specArgsSplit oargs⟩ := by
  constructor
  · decide
  · intro line nm oargs hmatch
    rw [decoratorMatchStr] at hmatch
    cases hm : decoratorMatchL (pyLstripAt line).data with
    | none => rw [hm] at hmatch; exact absurd hmatch (by simp)
    | some p =>
      obtain ⟨nmL, oargsL⟩ := p
      rw [hm] at hmatch
      simp only [Option.map_some', Option.some.injEq, Prod.mk.injEq] at hmatch
      obtain ⟨hnm, hoargs⟩ := hmatch
      cases oargsL with
      | none =>
        rw [← hoargs, ← hnm]
        simp [parse_decorator_line, hm, specArgsSplit]
      | some aL =>
        rw [← hoargs, ← hnm]
        by_cases ha : aL = []
        · subst ha
          simp only [Option.map_some']
          have hempty : String.mk ([] : List Char) = "" := by decide
          simp [parse_decorator_line, hm, specArgsSplit, hempty]
        · have hne : String.mk aL ≠ "" := by
            intro hh
            exact ha (congrArg String.data hh)
          have hne2 : aL.isEmpty = false := by
            cases aL with
            | nil => exact absurd rfl ha
            | cons c t => rfl
          simp [parse_decorator_line, hm, specArgsSplit, hne, hne2]

/-- Witness for C5: a decorator with a two-argument list parses to the
matched identifier and the comma-split trimmed raw arguments. -/
theorem spec_c5_witness :
    parse_decorator_line "@app.post(\"/y\", 1)" =
      ⟨"app.post", specArgsSplit (some "\"/y\", 1")⟩ :=
  spec_c5.2 "@app.post(\"/y\", 1)" "app.post" (some "\"/y\", 1") (by decide)

/-- Claim C6: a decorator line that does not match the identifier shape
parses to a record holding the raw marker-stripped text and no
arguments. -/
theorem spec_c6 :
    ∀ line : String, decoratorMatchStr (pyLstripAt line) = none →
      parse_decorator_line line = ⟨pyLstripAt line, []⟩ := by
  intro line hmatch
  rw [decoratorMatchStr] at hmatch
  cases hm : decoratorMatchL (pyLstripAt line).data with
  | none => simp [parse_decorator_line, hm]
  | some p => rw [hm] at hmatch; exact absurd hmatch (by simp)

/-- Witness for C6: the line `@ oops(1)` (the space keeps the identifier
group from matching) parses to its marker-stripped text with no
arguments. -/
theorem spec_c6_witness : parse_decorator_line "@ oops(1)" = ⟨" oops(1)", []⟩ :=
  spec_c6 "@ oops(1)" (by decide)

/-! Lemmas relating `strip` and `splitlines`, used to show the extractor
agrees with the spec's description of its output (claim C9). -/

theorem stripL_cons_ws (c : Char) (l : List Char) (hc : wsChar c = true) :
    stripL (c :: l) = stripL l := by
  simp [stripL, lstripL, List.dropWhile_cons, hc]

theorem rstripL_snoc_ws (c : Char) (l : List Char) (hc : wsChar c = true) :
    rstripL (l ++ [c]) = rstripL l := by
  simp [rstripL, List.reverse_append, List.dropWhile_cons, hc]

theorem rstripL_snoc_nonws (c : Char) (l : List Char) (hc : wsChar c = false) :
    rstripL (l ++ [c]) = l ++ [c] := by
  simp [rstripL, List.reverse_append, List.dropWhile_cons, hc]

theorem lstripL_append (l1 l2 : List Char) :
    lstripL (l1 ++ l2) = if (lstripL l1).isEmpty then lstripL l2 else lstripL l1 ++ l2 := by
  induction l1 with
  | nil => simp [lstripL]
  | cons c t ih =>
    by_cases hc : wsChar c = true
    · simpa [lstripL, List.dropWhile_cons, hc] using ih
    · simp [lstripL, List.dropWhile_cons, hc]

theorem stripL_snoc_ws (c : Char) (l : List Char) (hc : wsChar c = true) :
    stripL (l ++ [c]) = stripL l := by
  rw [stripL, stripL, lstripL_append]
  by_cases he : (lstripL l).isEmpty = true
  · rw [if_pos he]
    have h1 : lstripL [c] = [] := by simp [lstripL, List.dropWhile_cons, hc]
    have h2 : lstripL l = [] := by
      cases hl : lstripL l
      · rfl
      · rw [hl] at he; exact absurd he (by simp)
    rw [h1, h2]
  · rw [if_neg he]
    exact rstripL_snoc_ws c (lstripL l) hc

theorem stripL_singleton_ws (c : Char) (hc : wsChar c = true) : stripL [c] = [] := by
  have : stripL [c] = stripL ([] ++ [c]) := by simp
  rw [this, stripL_snoc_ws c [] hc]
  rfl

theorem splitlinesL_cons_ne_nil (c : Char) (rest : List Char) :
    splitlinesL (c :: rest) ≠ [] := by
  by_cases hc : c = '\n'
  · simp [splitlinesL, hc]
  · cases hsp : splitlinesL rest with
    | nil => simp [splitlinesL, hc, hsp]
    | cons l ls => simp [splitlinesL, hc, hsp]

theorem splitlinesL_ne_nil (s : List Char) (hs : s ≠ []) : splitlinesL s ≠ [] := by
  cases s with
  | nil => exact absurd rfl hs
  | cons c rest => exact splitlinesL_cons_ne_nil c rest

theorem isAt_nil : isAt [] = false := by decide

theorem endsNL_cons (a c : Char) (rest : List Char) :
    endsNL (a :: c :: rest) = endsNL (c :: rest) := rfl

theorem modifyLast_cons (f : List Char → List Char) (x : List Char)
    (L : List (List Char)) (hL : L ≠ []) :
    modifyLast f (x :: L) = x :: modifyLast f L := by
  cases L with
  | nil => exact absurd rfl hL
  | cons y ys => rfl

theorem splitlinesL_nl (rest : List Char) :
    splitlinesL ('\n' :: rest) = List.nil :: (if rest.isEmpty then [] else splitlinesL rest) := by
  simp [splitlinesL]

theorem splitlinesL_cons_of_nil (a : Char) (rest : List Char) (ha : a ≠ '\n')
    (h : splitlinesL rest = []) : splitlinesL (a :: rest) = [[a]] := by
  simp [splitlinesL, ha, h]

theorem splitlinesL_cons_of_cons (a : Char) (rest : List Char) (l : List Char)
    (ls : List (List Char)) (ha : a ≠ '\n')
    (h : splitlinesL rest = l :: ls) : splitlinesL (a :: rest) = (a :: l) :: ls := by
  simp [splitlinesL, ha, h]

theorem splitSnocNonNL (c : Char) (hc : c ≠ '\n') :
    ∀ s : List Char, splitlinesL (s ++ [c]) =
      if s = [] then [[c]]
      else if endsNL s then splitlinesL s ++ [[c]]
      else modifyLast (fun l => l ++ [c]) (splitlinesL s) := by
  intro s
  induction s with
  | nil => simp [splitlinesL, hc]
  | cons a t ih =>
    by_cases ha : a = '\n'
    · subst ha
      cases t with
      | nil =>
        rw [List.nil_append] at ih
        simp only [List.cons_append, List.nil_append]
        rw [splitlinesL_nl [c]]
        simp only [List.isEmpty_cons, if_neg (by simp : ¬((false : Bool) = true))]
        rw [splitlinesL_cons_of_nil c [] hc rfl]
        simp [splitlinesL, endsNL]
      | cons b t2 =>
        have hng : ¬(('\n' : Char) :: b :: t2 = []) := by simp
        rw [if_neg hng]
        have hlhs : splitlinesL (('\n' :: b :: t2) ++ [c]) =
            List.nil :: splitlinesL ((b :: t2) ++ [c]) := by
          rw [List.cons_append, splitlinesL_nl]
          simp
        rw [hlhs, ih]
        rw [if_neg (by simp : ¬(b :: t2 = []))]
        rw [endsNL_cons]
        have hsplit : splitlinesL ('\n' :: b :: t2) = List.nil :: splitlinesL (b :: t2) := by
          rw [splitlinesL_nl]
          simp
        by_cases hend : endsNL (b :: t2) = true
        · rw [if_pos hend, if_pos hend, hsplit]
          simp
        · rw [if_neg hend, if_neg hend, hsplit]
          rw [modifyLast_cons _ _ _ (splitlinesL_cons_ne_nil b t2)]
    · cases t with
      | nil =>
        have h1 : splitlinesL ([a] ++ [c]) = [[a, c]] := by
          rw [List.cons_append, List.nil_append]
          rw [splitlinesL_cons_of_cons a [c] [c] [] ha
            (splitlinesL_cons_of_nil c [] hc rfl)]
        rw [h1]
        rw [if_neg (by simp : ¬([a] = []))]
        have hend : endsNL [a] = false := by
          simp [endsNL, ha]
        rw [if_neg (by simp [hend] : ¬(endsNL [a] = true))]
        rw [splitlinesL_cons_of_nil a [] ha rfl]
        rfl
      | cons b t2 =>
        cases hsp : splitlinesL (b :: t2) with
        | nil => exact absurd hsp (splitlinesL_cons_ne_nil b t2)
        | cons lh ls =>
          rw [if_neg (by simp : ¬(a :: b :: t2 = []))]
          rw [if_neg (by simp : ¬(b :: t2 = []))] at ih
          rw [show endsNL (a :: b :: t2) = endsNL (b :: t2) from rfl]
          by_cases hend : endsNL (b :: t2) = true
          · rw [if_pos hend] at ih
            rw [if_pos hend]
            rw [hsp] at ih
            have hlhs : splitlinesL ((a :: b :: t2) ++ [c]) =
                (a :: lh) :: (ls ++ [[c]]) := by
              rw [List.cons_append]
              rw [splitlinesL_cons_of_cons a ((b :: t2) ++ [c]) lh (ls ++ [[c]]) ha
                (by rw [ih]; simp)]
            rw [hlhs, splitlinesL_cons_of_cons a (b :: t2) lh ls ha hsp]
            simp
          · rw [if_neg hend] at ih
            rw [if_neg hend]
            rw [hsp] at ih
            rw [splitlinesL_cons_of_cons a (b :: t2) lh ls ha hsp]
            cases ls with
            | nil =>
              have hlhs : splitlinesL ((a :: b :: t2) ++ [c]) = [a :: (lh ++ [c])] := by
                rw [List.cons_append]
                rw [splitlinesL_cons_of_cons a ((b :: t2) ++ [c]) (lh ++ [c]) [] ha
                  (by rw [ih]; rfl)]
              rw [hlhs]
              rfl
            | cons x xs =>
              have hstep : modifyLast (fun l => l ++ [c]) (lh :: x :: xs) =
                  lh :: modifyLast (fun l => l ++ [c]) (x :: xs) := rfl
              rw [hstep] at ih
              have hlhs : splitlinesL ((a :: b :: t2) ++ [c]) =
                  (a :: lh) :: modifyLast (fun l => l ++ [c]) (x :: xs) := by
                rw [List.cons_append]
                exact splitlinesL_cons_of_cons a ((b :: t2) ++ [c]) lh
                  (modifyLast (fun l => l ++ [c]) (x :: xs)) ha ih
              rw [hlhs]
              rfl

theorem splitSnocNL :
    ∀ s : List Char, splitlinesL (s ++ ['\n']) =
      if s = [] then [[]]
      else if endsNL s then splitlinesL s ++ [[]]
      else splitlinesL s := by
  intro s
  induction s with
  | nil => simp [splitlinesL]
  | cons a t ih =>
    by_cases ha : a = '\n'
    · subst ha
      cases t with
      | nil =>
        simp only [List.cons_append, List.nil_append]
        rw [splitlinesL_nl ['\n']]
        simp only [List.isEmpty_cons, if_neg (by simp : ¬((false : Bool) = true))]
        rw [splitlinesL_nl []]
        simp [splitlinesL, endsNL]
      | cons b t2 =>
        rw [if_neg (by simp : ¬(('\n' : Char) :: b :: t2 = []))]
        have hlhs : splitlinesL (('\n' :: b :: t2) ++ ['\n']) =
            List.nil :: splitlinesL ((b :: t2) ++ ['\n']) := by
          rw [List.cons_append, splitlinesL_nl]
          simp
        rw [hlhs, ih]
        rw [if_neg (by simp : ¬(b :: t2 = []))]
        rw [endsNL_cons]
        have hsplit : splitlinesL ('\n' :: b :: t2) = List.nil :: splitlinesL (b :: t2) := by
          rw [splitlinesL_nl]
          simp
        by_cases hend : endsNL (b :: t2) = true
        · rw [if_pos hend, if_pos hend, hsplit]
          simp
        · rw [if_neg hend, if_neg hend, hsplit]
    · cases t with
      | nil =>
        have h1 : splitlinesL ([a] ++ ['\n']) = [[a]] := by
          rw [List.cons_append, List.nil_append]
          rw [splitlinesL_cons_of_cons a ['\n'] [] [] ha (by rw [splitlinesL_nl]; simp)]
        rw [h1]
        rw [if_neg (by simp : ¬([a] = []))]
        have hend : endsNL [a] = false := by
          simp [endsNL, ha]
        rw [if_neg (by simp [hend] : ¬(endsNL [a] = true))]
        rw [splitlinesL_cons_of_nil a [] ha rfl]
      | cons b t2 =>
        cases hsp : splitlinesL (b :: t2) with
        | nil => exact absurd hsp (splitlinesL_cons_ne_nil b t2)
        | cons lh ls =>
          rw [if_neg (by simp : ¬(a :: b :: t2 = []))]
          rw [if_neg (by simp : ¬(b :: t2 = []))] at ih
          rw [show endsNL (a :: b :: t2) = endsNL (b :: t2) from rfl]
          by_cases hend : endsNL (b :: t2) = true
          · rw [if_pos hend] at ih
            rw [if_pos hend]
            rw [hsp] at ih
            have hlhs : splitlinesL ((a :: b :: t2) ++ ['\n']) =
                (a :: lh) :: (ls ++ [[]]) := by
              rw [List.cons_append]
              rw [splitlinesL_cons_of_cons a ((b :: t2) ++ ['\n']) lh (ls ++ [[]]) ha
                (by rw [ih]; simp)]
            rw [hlhs, splitlinesL_cons_of_cons a (b :: t2) lh ls ha hsp]
            simp
          · rw [if_neg hend] at ih
            rw [if_neg hend]
            rw [hsp] at ih
            have hlhs : splitlinesL ((a :: b :: t2) ++ ['\n']) = (a :: lh) :: ls := by
              rw [List.cons_append]
              exact splitlinesL_cons_of_cons a ((b :: t2) ++ ['\n']) lh ls ha ih
            rw [hlhs, splitlinesL_cons_of_cons a (b :: t2) lh ls ha hsp]

theorem stripL_nil : stripL [] = [] := rfl

theorem atLines_cons_ws (c : Char) (s : List Char) (hc : wsChar c = true) :
    atLines (c :: s) = atLines s := by
  by_cases hn : c = '\n'
  · subst hn
    rw [atLines, splitlinesL_nl]
    cases s with
    | nil => simp [atLines, splitlinesL, stripL_nil, isAt_nil]
    | cons b t =>
      simp only [List.isEmpty_cons, if_neg (by simp : ¬((false : Bool) = true))]
      simp [atLines, stripL_nil, isAt_nil]
  · cases hsp : splitlinesL s with
    | nil =>
      cases s with
      | nil =>
        rw [atLines, splitlinesL_cons_of_nil c [] hn rfl]
        simp [atLines, stripL_singleton_ws c hc, isAt_nil, splitlinesL]
      | cons b t => exact absurd hsp (splitlinesL_cons_ne_nil b t)
    | cons l ls =>
      rw [atLines, splitlinesL_cons_of_cons c s l ls hn hsp]
      rw [atLines, hsp]
      simp only [List.map_cons, List.filter_cons]
      rw [stripL_cons_ws c l hc]

theorem atLines_lstrip : ∀ s : List Char, atLines (lstripL s) = atLines s := by
  intro s
  induction s with
  | nil => rfl
  | cons c t ih =>
    by_cases hw : wsChar c = true
    · have hl : lstripL (c :: t) = lstripL t := by
        simp [lstripL, List.dropWhile_cons, hw]
      rw [hl, ih]
      exact (atLines_cons_ws c t hw).symm
    · have hl : lstripL (c :: t) = c :: t := by
        simp [lstripL, List.dropWhile_cons, hw]
      rw [hl]

theorem map_stripL_modifyLast (c : Char) (hc : wsChar c = true) :
    ∀ L : List (List Char),
      (modifyLast (fun l => l ++ [c]) L).map stripL = L.map stripL := by
  intro L
  induction L with
  | nil => rfl
  | cons l ls ih =>
    cases ls with
    | nil => simp [modifyLast, stripL_snoc_ws c l hc]
    | cons x xs =>
      rw [modifyLast_cons _ _ _ (by simp)]
      simp only [List.map_cons]
      rw [ih]
      rfl

theorem atLines_snoc_ws (c : Char) (s : List Char) (hc : wsChar c = true) :
    atLines (s ++ [c]) = atLines s := by
  by_cases hn : c = '\n'
  · subst hn
    rw [atLines, splitSnocNL s]
    by_cases hs : s = []
    · subst hs
      simp [atLines, splitlinesL, stripL_nil, isAt_nil]
    · rw [if_neg hs]
      by_cases hend : endsNL s = true
      · rw [if_pos hend]
        simp [atLines, stripL_nil, isAt_nil]
      · rw [if_neg hend]
        rfl
  · rw [atLines, splitSnocNonNL c hn s]
    by_cases hs : s = []
    · subst hs
      simp [atLines, splitlinesL, stripL_singleton_ws c hc, isAt_nil]
    · rw [if_neg hs]
      by_cases hend : endsNL s = true
      · rw [if_pos hend]
        simp [atLines, stripL_singleton_ws c hc, isAt_nil]
      · rw [if_neg hend]
        rw [atLines, map_stripL_modifyLast c hc]

theorem atLines_rstrip : ∀ s : List Char, atLines (rstripL s) = atLines s := by
  intro s
  induction s using List.reverseRecOn with
  | nil => rfl
  | append_singleton s c ih =>
    by_cases hw : wsChar c = true
    · rw [rstripL_snoc_ws c s hw, ih]
      exact (atLines_snoc_ws c s hw).symm
    · rw [rstripL_snoc_nonws c s (by simpa using hw)]

theorem atLines_strip (s : List Char) : atLines (stripL s) = atLines s := by
  rw [stripL, atLines_rstrip, atLines_lstrip]

theorem nonempty_and_isAt (y : List Char) :
    (decide (String.mk y ≠ "") && isAt y) = isAt y := by
  cases y with
  | nil => decide
  | cons c t =>
    have h1 : String.mk (c :: t) ≠ "" := by
      intro hh
      have h2 : c :: t = ([] : List Char) := congrArg String.data hh
      exact List.noConfusion h2
    rw [decide_eq_true h1, Bool.true_and]

theorem code_side_eq (L : List (List Char)) :
    ((L.map String.mk).filter (fun line => pyStartsWith (pyStrip line) "@")).map pyStrip
      = ((L.map stripL).filter isAt).map String.mk := by
  induction L with
  | nil => rfl
  | cons l ls ih =>
    simp only [List.map_cons, List.filter_cons]
    have hpred : pyStartsWith (pyStrip (String.mk l)) "@" = isAt (stripL l) := rfl
    rw [hpred]
    by_cases hp : isAt (stripL l) = true
    · rw [if_pos hp, if_pos hp]
      simp only [List.map_cons]
      rw [ih]
      rfl
    · rw [if_neg hp, if_neg hp]
      exact ih

theorem spec_side_eq (L : List (List Char)) :
    ((L.map String.mk).map pyStrip).filter (fun l => decide (l ≠ "") && pyStartsWith l "@")
      = ((L.map stripL).filter isAt).map String.mk := by
  induction L with
  | nil => rfl
  | cons l ls ih =>
    simp only [List.map_cons, List.filter_cons]
    have hpred : (decide (pyStrip (String.mk l) ≠ "") && pyStartsWith (pyStrip (String.mk l)) "@")
        = isAt (stripL l) := nonempty_and_isAt (stripL l)
    rw [hpred]
    by_cases hp : isAt (stripL l) = true
    · rw [if_pos hp, if_pos hp]
      simp only [List.map_cons]
      rw [ih]
      rfl
    · rw [if_neg hp, if_neg hp]
      exact ih

/-- Stripping the cut source text before splitting it into lines (as the
code does) yields the same filtered decorator lines as splitting the cut
text directly and keeping the non-empty stripped lines that begin with the
marker (as the spec describes). -/
theorem decorator_lines_strip_eq (h : String) :
    ((pySplitlines (pyStrip h)).filter (fun line => pyStartsWith (pyStrip line) "@")).map pyStrip
      = ((pySplitlines h).map pyStrip).filter (fun l => decide (l ≠ "") && pyStartsWith l "@") := by
  have h1 := code_side_eq (splitlinesL (stripL h.data))
  have h2 := spec_side_eq (splitlinesL h.data)
  rw [show pySplitlines (pyStrip h) = (splitlinesL (stripL h.data)).map String.mk from rfl]
  rw [show pySplitlines h = (splitlinesL h.data).map String.mk from rfl]
  rw [h1, h2]
  exact congrArg (List.map String.mk) (atLines_strip h.data)

/-- Claim C9: with retrievable source text the extractor returns exactly
the non-empty, whitespace-stripped lines preceding the first occurrence of
the function-definition keyword that begin with the annotation marker, in
source order; with unavailable source text it raises the lookup error,
which propagates to the caller. -/
theorem spec_c9 :
    (∀ (fn : PyFunction) (src : String) (i : Nat),
      fn.source = some src →
      pyFindSub src "def " = some i →
      get_decorator_lines fn = Except.ok (decoratorLinesSpec src i)) ∧
    (∀ fn : PyFunction, fn.source = none →
      get_decorator_lines fn = Except.error PyErr.sourceUnavailable) := by
  constructor
  · intro fn src i hsrc hfind
    rw [get_decorator_lines, hsrc]
    simp only [hfind]
    rw [decoratorLinesSpec]
    exact congrArg Except.ok (decorator_lines_strip_eq (pyTakeStr src i))
  · intro fn hsrc
    rw [get_decorator_lines, hsrc]

example : decoratorLinesSpec (srcWithDeco "@router2.get(\"/x\")" "custom_ep") 25 =
    ["@router2.get(\"/x\")"] := by decide

/-- Witness for C9: the decorated fixture's extraction equals the spec's
line list, and the sourceless fixture raises the lookup error. -/
theorem spec_c9_witness :
    get_decorator_lines fnCustom =
      Except.ok (decoratorLinesSpec (srcWithDeco "@router2.get(\"/x\")" "custom_ep") 25) ∧
    get_decorator_lines fnNoSrc = Except.error PyErr.sourceUnavailable :=
  ⟨spec_c9.1 fnCustom (srcWithDeco "@router2.get(\"/x\")" "custom_ep") 25 rfl (by decide),
   spec_c9.2 fnNoSrc rfl⟩
